import Mathlib

/-!
Verification of `src/update_types.py`.

The script reads a JSON document from a hardcoded input path, extracts the
value of its `types` key, and writes that value to a hardcoded output path,
printing a success message; any exception is caught by a single module-level
handler that prints the error.

Shallow embedding: the filesystem is a map from paths to optional contents,
the outcome of `json.load` is supplied by the world as a function from the
file contents to an optional JSON value (the JSON decoder is Python standard
library code, not part of this repository), and the two fallible operations
on the output file (opening in write mode, writing) get explicit success
flags.  `runScript` mirrors the module-level try/except block, returning the
final filesystem, the single printed line, whether the except branch ran, and
a trace of the attempted operations.
-/

/-- JSON values as produced by `json.load`: null, booleans, numbers,
strings, arrays, and objects (Python dicts, here association lists). -/
inductive Json where
  | null
  | bool (b : Bool)
  | num (n : Int)
  | str (s : String)
  | arr (elems : List Json)
  | obj (fields : List (String × Json))

/-- The exceptions the script can raise, all caught by the one handler:
input open/read failure, JSON decode failure, `KeyError` on the missing
`types` key, `TypeError` when the parsed document is not a dict,
output open failure, `TypeError` when `f.write` gets a non-string, and an
I/O failure of the write itself. -/
inductive Err where
  | fileNotFound
  | jsonDecode
  | keyMissing
  | notSubscriptable
  | openWriteFailed
  | writeNotStr
  | writeFailed
  deriving DecidableEq

/-- The operations the script attempts, in source order. -/
inductive Event where
  | readInput
  | parseInput
  | extractField
  | openOutput
  | writeOutput
  | printLine
  deriving DecidableEq

/-- `input_path` from line 5 of the script. -/
def input_path : String :=
  "C:/Users/Qbits/.gemini/antigravity/brain/b8aef8e2-6c26-4073-baeb-701e97c1f662/.system_generated/steps/135/output.txt"

/-- `output_path` from line 6 of the script. -/
def output_path : String := "g:/cw/src/integrations/supabase/types.ts"

/-- Key lookup in a JSON object, as Python dict subscripting. -/
def lookupField : List (String × Json) → String → Option Json
  | [], _ => none
  | (k, v) :: rest, key => if k = key then some v else lookupField rest key

/-- `data["types"]` (line 11): succeeds only when `data` is a dict holding
the key; a dict without the key raises `KeyError`, any non-dict raises
`TypeError`. -/
def extractTypes : Json → Except Err Json
  | Json.obj fields =>
      match lookupField fields "types" with
      | some v => Except.ok v
      | none => Except.error Err.keyMissing
  | _ => Except.error Err.notSubscriptable

/-- The text of the exception, as interpolated into `print` on line 19. -/
def errMsg : Err → String
  | Err.fileNotFound => "No such file or directory: " ++ input_path
  | Err.jsonDecode => "Expecting value"
  | Err.keyMissing => "types"
  | Err.notSubscriptable => "object is not subscriptable"
  | Err.openWriteFailed => "cannot open file: " ++ output_path
  | Err.writeNotStr => "write argument must be str"
  | Err.writeFailed => "write failed"

/-- The line printed by the except branch (line 19). -/
def errLine (e : Err) : String := "Error: " ++ errMsg e

/-- The line printed on success (line 16). -/
def successMessage : String := "Successfully wrote types to " ++ output_path

/-- Point update of the filesystem map, the effect of writing a file. -/
def updateFS (fs : String → Option String) (p v : String) : String → Option String :=
  fun q => if q = p then some v else fs q

/-- The state one run of the script executes in: the filesystem, the
outcome of the JSON decoder on any contents, and whether opening the output
file in write mode and writing to it succeed at the operating-system level. -/
structure World where
  fs : String → Option String
  jsonParse : String → Option Json
  openWriteOk : Bool
  writeOk : Bool

/-- What one run leaves behind: the final filesystem, the one printed line,
whether the except branch ran, and the trace of attempted operations. -/
structure RunResult where
  fs : String → Option String
  printed : String
  errored : Bool
  trace : List Event

/-- One run of the module-level try/except block (lines 8-19): read the
input file, decode it as JSON, subscript with `"types"`, open the output
path in write mode (which truncates it), write the extracted value (which
raises `TypeError` unless it is a string), print the success message; any
failure jumps to the handler which prints the error. -/
def runScript (w : World) : RunResult :=
  match w.fs input_path with
  | none =>
      { fs := w.fs, printed := errLine Err.fileNotFound, errored := true,
        trace := [Event.readInput, Event.printLine] }
  | some content =>
    match w.jsonParse content with
    | none =>
        { fs := w.fs, printed := errLine Err.jsonDecode, errored := true,
          trace := [Event.readInput, Event.parseInput, Event.printLine] }
    | some data =>
      match extractTypes data with
      | Except.error e =>
          { fs := w.fs, printed := errLine e, errored := true,
            trace := [Event.readInput, Event.parseInput, Event.extractField,
                      Event.printLine] }
      | Except.ok tc =>
        if w.openWriteOk then
          match tc with
          | Json.str s =>
            if w.writeOk then
              { fs := updateFS w.fs output_path s, printed := successMessage,
                errored := false,
                trace := [Event.readInput, Event.parseInput, Event.extractField,
                          Event.openOutput, Event.writeOutput, Event.printLine] }
            else
              { fs := updateFS w.fs output_path "",
                printed := errLine Err.writeFailed, errored := true,
                trace := [Event.readInput, Event.parseInput, Event.extractField,
                          Event.openOutput, Event.writeOutput, Event.printLine] }
          | _ =>
              { fs := updateFS w.fs output_path "",
                printed := errLine Err.writeNotStr, errored := true,
                trace := [Event.readInput, Event.parseInput, Event.extractField,
                          Event.openOutput, Event.writeOutput, Event.printLine] }
        else
          { fs := w.fs, printed := errLine Err.openWriteFailed, errored := true,
            trace := [Event.readInput, Event.parseInput, Event.extractField,
                      Event.openOutput, Event.printLine] }

/-- The five operation sequences a run can perform, each linear and in
source order. -/
def allowedTraces : List (List Event) :=
  [ [Event.readInput, Event.printLine],
    [Event.readInput, Event.parseInput, Event.printLine],
    [Event.readInput, Event.parseInput, Event.extractField, Event.printLine],
    [Event.readInput, Event.parseInput, Event.extractField, Event.openOutput,
     Event.printLine],
    [Event.readInput, Event.parseInput, Event.extractField, Event.openOutput,
     Event.writeOutput, Event.printLine] ]

/-- A well-formed input document for concrete evaluation. -/
def goodJson : Json := Json.obj [("types", Json.str "typedefs")]

/-- A world where every step succeeds. -/
def wGood : World :=
  { fs := fun _ => some "payload",
    jsonParse := fun _ => some goodJson,
    openWriteOk := true, writeOk := true }

/-- A world like `wGood` whose filesystem differs at an unrelated path. -/
def wGoodAlt : World :=
  { fs := fun p => if p = "unrelated" then some "junk" else some "payload",
    jsonParse := fun _ => some goodJson,
    openWriteOk := true, writeOk := true }

/-- A world where the input file is missing. -/
def wNoRead : World :=
  { fs := fun _ => none,
    jsonParse := fun _ => none,
    openWriteOk := true, writeOk := true }

/-- A world whose input decodes to a dict whose `types` value is a number,
not a string. -/
def wBadType : World :=
  { fs := fun _ => some "payload",
    jsonParse := fun _ => some (Json.obj [("types", Json.num 3)]),
    openWriteOk := true, writeOk := true }

theorem runScript_read_fail (w : World) (h : w.fs input_path = none) :
    runScript w =
      { fs := w.fs, printed := errLine Err.fileNotFound, errored := true,
        trace := [Event.readInput, Event.printLine] } := by
  unfold runScript
  rw [h]

theorem runScript_parse_fail (w : World) (content : String)
    (hr : w.fs input_path = some content) (hp : w.jsonParse content = none) :
    runScript w =
      { fs := w.fs, printed := errLine Err.jsonDecode, errored := true,
        trace := [Event.readInput, Event.parseInput, Event.printLine] } := by
  unfold runScript
  rw [hr]
  dsimp only
  rw [hp]

theorem runScript_extract_fail (w : World) (content : String) (data : Json)
    (e : Err) (hr : w.fs input_path = some content)
    (hp : w.jsonParse content = some data)
    (he : extractTypes data = Except.error e) :
    runScript w =
      { fs := w.fs, printed := errLine e, errored := true,
        trace := [Event.readInput, Event.parseInput, Event.extractField,
                  Event.printLine] } := by
  unfold runScript
  rw [hr]
  dsimp only
  rw [hp]
  dsimp only
  rw [he]

theorem runScript_open_fail (w : World) (content : String) (data tc : Json)
    (hr : w.fs input_path = some content)
    (hp : w.jsonParse content = some data)
    (he : extractTypes data = Except.ok tc)
    (ho : w.openWriteOk = false) :
    runScript w =
      { fs := w.fs, printed := errLine Err.openWriteFailed, errored := true,
        trace := [Event.readInput, Event.parseInput, Event.extractField,
                  Event.openOutput, Event.printLine] } := by
  unfold runScript
  rw [hr]
  dsimp only
  rw [hp]
  dsimp only
  rw [he]
  dsimp only
  rw [ho]
  simp

theorem runScript_write_success (w : World) (content s : String) (data : Json)
    (hr : w.fs input_path = some content)
    (hp : w.jsonParse content = some data)
    (he : extractTypes data = Except.ok (Json.str s))
    (ho : w.openWriteOk = true) (hw : w.writeOk = true) :
    runScript w =
      { fs := updateFS w.fs output_path s, printed := successMessage,
        errored := false,
        trace := [Event.readInput, Event.parseInput, Event.extractField,
                  Event.openOutput, Event.writeOutput, Event.printLine] } := by
  unfold runScript
  rw [hr]
  dsimp only
  rw [hp]
  dsimp only
  rw [he]
  dsimp only
  rw [ho]
  rw [hw]
  simp

theorem runScript_write_io_fail (w : World) (content s : String) (data : Json)
    (hr : w.fs input_path = some content)
    (hp : w.jsonParse content = some data)
    (he : extractTypes data = Except.ok (Json.str s))
    (ho : w.openWriteOk = true) (hw : w.writeOk = false) :
    runScript w =
      { fs := updateFS w.fs output_path "",
        printed := errLine Err.writeFailed, errored := true,
        trace := [Event.readInput, Event.parseInput, Event.extractField,
                  Event.openOutput, Event.writeOutput, Event.printLine] } := by
  unfold runScript
  rw [hr]
  dsimp only
  rw [hp]
  dsimp only
  rw [he]
  dsimp only
  rw [ho]
  rw [hw]
  simp

theorem runScript_write_notstr (w : World) (content : String) (data tc : Json)
    (hr : w.fs input_path = some content)
    (hp : w.jsonParse content = some data)
    (he : extractTypes data = Except.ok tc)
    (hn : ∀ s, tc ≠ Json.str s)
    (ho : w.openWriteOk = true) :
    runScript w =
      { fs := updateFS w.fs output_path "",
        printed := errLine Err.writeNotStr, errored := true,
        trace := [Event.readInput, Event.parseInput, Event.extractField,
                  Event.openOutput, Event.writeOutput, Event.printLine] } := by
  unfold runScript
  rw [hr]
  dsimp only
  rw [hp]
  dsimp only
  rw [he]
  dsimp only
  rw [ho]
  cases tc with
  | str s => exact absurd rfl (hn s)
  | null => simp
  | bool b => simp
  | num n => simp
  | arr elems => simp
  | obj fields => simp

theorem json_str_cases (tc : Json) :
    (∃ s, tc = Json.str s) ∨ ∀ s, tc ≠ Json.str s := by
  cases tc
  case str s => exact Or.inl ⟨s, rfl⟩
  all_goals exact Or.inr (fun s h => Json.noConfusion h)

/-- C1: in every run where the input file is readable, decodes to a JSON
object whose `types` key holds a string, and both output-file operations
succeed, the destination file ends up containing exactly that string and
the success message naming the output path is printed. -/
theorem success_writes_types_field (w : World) (content s : String)
    (fields : List (String × Json))
    (hread : w.fs input_path = some content)
    (hparse : w.jsonParse content = some (Json.obj fields))
    (hfield : lookupField fields "types" = some (Json.str s))
    (hopen : w.openWriteOk = true) (hwrite : w.writeOk = true) :
    (runScript w).fs output_path = some s ∧
    (runScript w).printed = successMessage := by
  have he : extractTypes (Json.obj fields) = Except.ok (Json.str s) := by
    unfold extractTypes
    dsimp only
    rw [hfield]
  rw [runScript_write_success w content s (Json.obj fields) hread hparse he
    hopen hwrite]
  exact ⟨by simp [updateFS], rfl⟩

/-- C1 witness: a fully successful concrete run. -/
theorem success_writes_types_field_holds :
    (runScript wGood).fs output_path = some "typedefs" ∧
    (runScript wGood).printed = successMessage :=
  success_writes_types_field wGood "payload" "typedefs"
    [("types", Json.str "typedefs")] rfl rfl (by simp [lookupField]) rfl rfl

/-- C2: every failure is caught by the single generic handler, which prints
the error; neither file operation is attempted more than once, and nothing
is restored afterwards (the output file is left as it was, or left
truncated). -/
theorem failure_single_handler_no_retry (w : World)
    (herr : (runScript w).errored = true) :
    (∃ e : Err, (runScript w).printed = errLine e) ∧
    (runScript w).trace.count Event.readInput ≤ 1 ∧
    (runScript w).trace.count Event.openOutput ≤ 1 ∧
    (runScript w).trace.count Event.writeOutput ≤ 1 ∧
    ((runScript w).fs output_path = w.fs output_path ∨
      (runScript w).fs output_path = some "") := by
  rcases hread : w.fs input_path with _ | content
  · rw [runScript_read_fail w hread]
    dsimp only
    exact ⟨⟨Err.fileNotFound, rfl⟩, by decide, by decide, by decide, Or.inl rfl⟩
  · rcases hparse : w.jsonParse content with _ | data
    · rw [runScript_parse_fail w content hread hparse]
      dsimp only
      exact ⟨⟨Err.jsonDecode, rfl⟩, by decide, by decide, by decide, Or.inl rfl⟩
    · rcases hex : extractTypes data with e | tc
      · rw [runScript_extract_fail w content data e hread hparse hex]
        dsimp only
        exact ⟨⟨e, rfl⟩, by decide, by decide, by decide, Or.inl rfl⟩
      · cases hopen : w.openWriteOk with
        | false =>
            rw [runScript_open_fail w content data tc hread hparse hex hopen]
            dsimp only
            exact ⟨⟨Err.openWriteFailed, rfl⟩, by decide, by decide, by decide,
              Or.inl rfl⟩
        | true =>
            rcases json_str_cases tc with ⟨s, rfl⟩ | hn
            · cases hwr : w.writeOk with
              | true =>
                  rw [runScript_write_success w content s data hread hparse hex
                    hopen hwr] at herr
                  simp at herr
              | false =>
                  rw [runScript_write_io_fail w content s data hread hparse hex
                    hopen hwr]
                  dsimp only
                  exact ⟨⟨Err.writeFailed, rfl⟩, by decide, by decide, by decide,
                    Or.inr (by simp [updateFS])⟩
            · rw [runScript_write_notstr w content data tc hread hparse hex hn
                hopen]
              dsimp only
              exact ⟨⟨Err.writeNotStr, rfl⟩, by decide, by decide, by decide,
                Or.inr (by simp [updateFS])⟩

/-- C2 witness: a concrete run whose input file is missing. -/
theorem failure_single_handler_no_retry_holds :
    (∃ e : Err, (runScript wNoRead).printed = errLine e) ∧
    (runScript wNoRead).trace.count Event.readInput ≤ 1 ∧
    (runScript wNoRead).trace.count Event.openOutput ≤ 1 ∧
    (runScript wNoRead).trace.count Event.writeOutput ≤ 1 ∧
    ((runScript wNoRead).fs output_path = wNoRead.fs output_path ∨
      (runScript wNoRead).fs output_path = some "") :=
  failure_single_handler_no_retry wNoRead rfl

/-- C3: every run performs one of five linear operation sequences, each in
source order, and the output file is only ever opened after the input has
been read, decoded, and the `types` field extracted successfully. -/
theorem linear_order_output_after_extract (w : World) :
    (runScript w).trace ∈ allowedTraces ∧
    (Event.openOutput ∈ (runScript w).trace →
      ∃ (content : String) (data tc : Json),
        w.fs input_path = some content ∧ w.jsonParse content = some data ∧
        extractTypes data = Except.ok tc) := by
  rcases hread : w.fs input_path with _ | content
  · rw [runScript_read_fail w hread]
    dsimp only
    exact ⟨by decide, fun hmem => absurd hmem (by decide)⟩
  · rcases hparse : w.jsonParse content with _ | data
    · rw [runScript_parse_fail w content hread hparse]
      dsimp only
      exact ⟨by decide, fun hmem => absurd hmem (by decide)⟩
    · rcases hex : extractTypes data with e | tc
      · rw [runScript_extract_fail w content data e hread hparse hex]
        dsimp only
        exact ⟨by decide, fun hmem => absurd hmem (by decide)⟩
      · cases hopen : w.openWriteOk with
        | false =>
            rw [runScript_open_fail w content data tc hread hparse hex hopen]
            dsimp only
            exact ⟨by decide, fun _ => ⟨content, data, tc, rfl, hparse, hex⟩⟩
        | true =>
            rcases json_str_cases tc with ⟨s, rfl⟩ | hn
            · cases hwr : w.writeOk with
              | true =>
                  rw [runScript_write_success w content s data hread hparse hex
                    hopen hwr]
                  dsimp only
                  exact ⟨by decide,
                    fun _ => ⟨content, data, Json.str s, rfl, hparse, hex⟩⟩
              | false =>
                  rw [runScript_write_io_fail w content s data hread hparse hex
                    hopen hwr]
                  dsimp only
                  exact ⟨by decide,
                    fun _ => ⟨content, data, Json.str s, rfl, hparse, hex⟩⟩
            · rw [runScript_write_notstr w content data tc hread hparse hex hn
                hopen]
              dsimp only
              exact ⟨by decide, fun _ => ⟨content, data, tc, rfl, hparse, hex⟩⟩

/-- C3 witness: the ordering property evaluated on a concrete successful
run. -/
theorem linear_order_output_after_extract_holds :
    (runScript wGood).trace ∈ allowedTraces ∧
    (Event.openOutput ∈ (runScript wGood).trace →
      ∃ (content : String) (data tc : Json),
        wGood.fs input_path = some content ∧
        wGood.jsonParse content = some data ∧
        extractTypes data = Except.ok tc) :=
  linear_order_output_after_extract wGood

/-- C4: a successful run replaces the output file's contents entirely with
the `types` string, whatever the file held before. -/
theorem success_overwrites_output (w : World) (content s : String)
    (data : Json)
    (hread : w.fs input_path = some content)
    (hparse : w.jsonParse content = some data)
    (hfield : extractTypes data = Except.ok (Json.str s))
    (hopen : w.openWriteOk = true) (hwrite : w.writeOk = true) :
    (runScript w).fs output_path = some s := by
  rw [runScript_write_success w content s data hread hparse hfield hopen
    hwrite]
  simp [updateFS]

/-- C4 witness: a concrete run whose output file held other text before. -/
theorem success_overwrites_output_holds :
    (runScript wGoodAlt).fs output_path = some "typedefs" :=
  success_overwrites_output wGoodAlt "payload" "typedefs" goodJson
    (by decide) rfl (by simp [extractTypes, goodJson, lookupField]) rfl rfl

/-- C5: when the input decodes to a JSON object whose `types` key holds a
string and both output-file operations succeed, the except branch never
runs and exactly the success message is printed. -/
theorem wellformed_input_no_error (w : World) (content s : String)
    (fields : List (String × Json))
    (hread : w.fs input_path = some content)
    (hparse : w.jsonParse content = some (Json.obj fields))
    (hfield : lookupField fields "types" = some (Json.str s))
    (hopen : w.openWriteOk = true) (hwrite : w.writeOk = true) :
    (runScript w).errored = false ∧
    (runScript w).printed = successMessage := by
  have he : extractTypes (Json.obj fields) = Except.ok (Json.str s) := by
    unfold extractTypes
    dsimp only
    rw [hfield]
  rw [runScript_write_success w content s (Json.obj fields) hread hparse he
    hopen hwrite]
  exact ⟨rfl, rfl⟩

/-- C5 witness: the error branch does not run on a well-formed concrete
input. -/
theorem wellformed_input_no_error_holds :
    (runScript wGood).errored = false ∧
    (runScript wGood).printed = successMessage :=
  wellformed_input_no_error wGood "payload" "typedefs"
    [("types", Json.str "typedefs")] rfl rfl (by simp [lookupField]) rfl rfl

/-- C6: the run writes no path other than the hardcoded output path, and
its printed line and operation trace depend on the filesystem only through
the hardcoded input path's contents. -/
theorem frame_only_two_paths (w1 w2 : World) (p : String)
    (hp : p ≠ output_path)
    (hjp : w1.jsonParse = w2.jsonParse)
    (ho : w1.openWriteOk = w2.openWriteOk)
    (hw : w1.writeOk = w2.writeOk)
    (hin : w1.fs input_path = w2.fs input_path) :
    (runScript w1).fs p = w1.fs p ∧
    (runScript w1).printed = (runScript w2).printed ∧
    (runScript w1).trace = (runScript w2).trace := by
  rcases hread : w1.fs input_path with _ | content
  · have hread2 : w2.fs input_path = none := hin ▸ hread
    rw [runScript_read_fail w1 hread, runScript_read_fail w2 hread2]
    exact ⟨rfl, rfl, rfl⟩
  · have hread2 : w2.fs input_path = some content := hin ▸ hread
    rcases hparse : w1.jsonParse content with _ | data
    · have hparse2 : w2.jsonParse content = none := hjp ▸ hparse
      rw [runScript_parse_fail w1 content hread hparse,
        runScript_parse_fail w2 content hread2 hparse2]
      exact ⟨rfl, rfl, rfl⟩
    · have hparse2 : w2.jsonParse content = some data := hjp ▸ hparse
      rcases hex : extractTypes data with e | tc
      · rw [runScript_extract_fail w1 content data e hread hparse hex,
          runScript_extract_fail w2 content data e hread2 hparse2 hex]
        exact ⟨rfl, rfl, rfl⟩
      · cases hopen : w1.openWriteOk with
        | false =>
            have hopen2 : w2.openWriteOk = false := ho ▸ hopen
            rw [runScript_open_fail w1 content data tc hread hparse hex hopen,
              runScript_open_fail w2 content data tc hread2 hparse2 hex hopen2]
            exact ⟨rfl, rfl, rfl⟩
        | true =>
            have hopen2 : w2.openWriteOk = true := ho ▸ hopen
            rcases json_str_cases tc with ⟨s, rfl⟩ | hn
            · cases hwr : w1.writeOk with
              | true =>
                  have hwr2 : w2.writeOk = true := hw ▸ hwr
                  rw [runScript_write_success w1 content s data hread hparse
                      hex hopen hwr,
                    runScript_write_success w2 content s data hread2 hparse2
                      hex hopen2 hwr2]
                  exact ⟨by simp [updateFS, hp], rfl, rfl⟩
              | false =>
                  have hwr2 : w2.writeOk = false := hw ▸ hwr
                  rw [runScript_write_io_fail w1 content s data hread hparse
                      hex hopen hwr,
                    runScript_write_io_fail w2 content s data hread2 hparse2
                      hex hopen2 hwr2]
                  exact ⟨by simp [updateFS, hp], rfl, rfl⟩
            · rw [runScript_write_notstr w1 content data tc hread hparse hex
                  hn hopen,
                runScript_write_notstr w2 content data tc hread2 hparse2 hex
                  hn hopen2]
              exact ⟨by simp [updateFS, hp], rfl, rfl⟩

/-- C6 witness: two concrete worlds whose filesystems differ away from the
two hardcoded paths. -/
theorem frame_only_two_paths_holds :
    (runScript wGood).fs "elsewhere" = wGood.fs "elsewhere" ∧
    (runScript wGood).printed = (runScript wGoodAlt).printed ∧
    (runScript wGood).trace = (runScript wGoodAlt).trace :=
  frame_only_two_paths wGood wGoodAlt "elsewhere" (by decide) rfl rfl rfl
    (by decide)

/-- C7: two runs that see the same input-file contents, the same prior
output-file contents, the same decoder, and the same outcomes for the two
output-file operations produce the same final output-file contents and the
same printed line. -/
theorem deterministic_given_outcomes (w1 w2 : World)
    (hjp : w1.jsonParse = w2.jsonParse)
    (ho : w1.openWriteOk = w2.openWriteOk)
    (hw : w1.writeOk = w2.writeOk)
    (hin : w1.fs input_path = w2.fs input_path)
    (hout : w1.fs output_path = w2.fs output_path) :
    (runScript w1).fs output_path = (runScript w2).fs output_path ∧
    (runScript w1).printed = (runScript w2).printed := by
  rcases hread : w1.fs input_path with _ | content
  · have hread2 : w2.fs input_path = none := hin ▸ hread
    rw [runScript_read_fail w1 hread, runScript_read_fail w2 hread2]
    exact ⟨hout, rfl⟩
  · have hread2 : w2.fs input_path = some content := hin ▸ hread
    rcases hparse : w1.jsonParse content with _ | data
    · have hparse2 : w2.jsonParse content = none := hjp ▸ hparse
      rw [runScript_parse_fail w1 content hread hparse,
        runScript_parse_fail w2 content hread2 hparse2]
      exact ⟨hout, rfl⟩
    · have hparse2 : w2.jsonParse content = some data := hjp ▸ hparse
      rcases hex : extractTypes data with e | tc
      · rw [runScript_extract_fail w1 content data e hread hparse hex,
          runScript_extract_fail w2 content data e hread2 hparse2 hex]
        exact ⟨hout, rfl⟩
      · cases hopen : w1.openWriteOk with
        | false =>
            have hopen2 : w2.openWriteOk = false := ho ▸ hopen
            rw [runScript_open_fail w1 content data tc hread hparse hex hopen,
              runScript_open_fail w2 content data tc hread2 hparse2 hex hopen2]
            exact ⟨hout, rfl⟩
        | true =>
            have hopen2 : w2.openWriteOk = true := ho ▸ hopen
            rcases json_str_cases tc with ⟨s, rfl⟩ | hn
            · cases hwr : w1.writeOk with
              | true =>
                  have hwr2 : w2.writeOk = true := hw ▸ hwr
                  rw [runScript_write_success w1 content s data hread hparse
                      hex hopen hwr,
                    runScript_write_success w2 content s data hread2 hparse2
                      hex hopen2 hwr2]
                  exact ⟨by simp [updateFS], rfl⟩
              | false =>
                  have hwr2 : w2.writeOk = false := hw ▸ hwr
                  rw [runScript_write_io_fail w1 content s data hread hparse
                      hex hopen hwr,
                    runScript_write_io_fail w2 content s data hread2 hparse2
                      hex hopen2 hwr2]
                  exact ⟨by simp [updateFS], rfl⟩
            · rw [runScript_write_notstr w1 content data tc hread hparse hex
                  hn hopen,
                runScript_write_notstr w2 content data tc hread2 hparse2 hex
                  hn hopen2]
              exact ⟨by simp [updateFS], rfl⟩

/-- C7 witness: two concrete worlds agreeing on both hardcoded paths and on
all operation outcomes. -/
theorem deterministic_given_outcomes_holds :
    (runScript wGood).fs output_path = (runScript wGoodAlt).fs output_path ∧
    (runScript wGood).printed = (runScript wGoodAlt).printed :=
  deterministic_given_outcomes wGood wGoodAlt rfl rfl rfl (by decide)
    (by decide)

/-- C8: when the run fails before the output file is opened — missing or
unreadable input, undecodable JSON, or failed `types` extraction — the
whole filesystem, the output file included, is left unchanged. -/
theorem early_failure_output_unchanged (w : World)
    (h : w.fs input_path = none ∨
      (∃ content, w.fs input_path = some content ∧
        w.jsonParse content = none) ∨
      (∃ content data e, w.fs input_path = some content ∧
        w.jsonParse content = some data ∧
        extractTypes data = Except.error e)) :
    (runScript w).fs = w.fs := by
  rcases h with hread | ⟨content, hread, hparse⟩ |
    ⟨content, data, e, hread, hparse, hex⟩
  · rw [runScript_read_fail w hread]
  · rw [runScript_parse_fail w content hread hparse]
  · rw [runScript_extract_fail w content data e hread hparse hex]

/-- C8 witness: a concrete run with a missing input file. -/
theorem early_failure_output_unchanged_holds :
    (runScript wNoRead).fs = wNoRead.fs :=
  early_failure_output_unchanged wNoRead (Or.inl rfl)

/-- C9: when the `types` value exists but is not a string and the output
file opens in write mode, the open truncates the file before `f.write`
raises, so the run ends in the error branch with the output file emptied. -/
theorem nonstring_types_truncates_output (w : World) (content : String)
    (fields : List (String × Json)) (tc : Json)
    (hread : w.fs input_path = some content)
    (hparse : w.jsonParse content = some (Json.obj fields))
    (hfield : lookupField fields "types" = some tc)
    (hn : ∀ s, tc ≠ Json.str s)
    (hopen : w.openWriteOk = true) :
    (runScript w).fs output_path = some "" ∧
    (runScript w).errored = true ∧
    (runScript w).printed = errLine Err.writeNotStr := by
  have he : extractTypes (Json.obj fields) = Except.ok tc := by
    unfold extractTypes
    dsimp only
    rw [hfield]
  rw [runScript_write_notstr w content (Json.obj fields) tc hread hparse he
    hn hopen]
  exact ⟨by simp [updateFS], rfl, rfl⟩

/-- C9 witness: a concrete run whose `types` value is the number 3. -/
theorem nonstring_types_truncates_output_holds :
    (runScript wBadType).fs output_path = some "" ∧
    (runScript wBadType).errored = true ∧
    (runScript wBadType).printed = errLine Err.writeNotStr :=
  nonstring_types_truncates_output wBadType "payload"
    [("types", Json.num 3)] (Json.num 3) rfl rfl (by simp [lookupField])
    (fun s h => Json.noConfusion h) rfl

/-- C10: every run terminates normally having printed exactly one line,
either the success message with the error branch not taken, or an error
line with it taken; no exception escapes the handler. -/
theorem always_terminates_one_line (w : World) :
    ((runScript w).errored = false ∧
        (runScript w).printed = successMessage ∨
      (runScript w).errored = true ∧
        ∃ e, (runScript w).printed = errLine e) ∧
    (runScript w).trace.count Event.printLine = 1 := by
  rcases hread : w.fs input_path with _ | content
  · rw [runScript_read_fail w hread]
    dsimp only
    exact ⟨Or.inr ⟨rfl, Err.fileNotFound, rfl⟩, by decide⟩
  · rcases hparse : w.jsonParse content with _ | data
    · rw [runScript_parse_fail w content hread hparse]
      dsimp only
      exact ⟨Or.inr ⟨rfl, Err.jsonDecode, rfl⟩, by decide⟩
    · rcases hex : extractTypes data with e | tc
      · rw [runScript_extract_fail w content data e hread hparse hex]
        dsimp only
        exact ⟨Or.inr ⟨rfl, e, rfl⟩, by decide⟩
      · cases hopen : w.openWriteOk with
        | false =>
            rw [runScript_open_fail w content data tc hread hparse hex hopen]
            dsimp only
            exact ⟨Or.inr ⟨rfl, Err.openWriteFailed, rfl⟩, by decide⟩
        | true =>
            rcases json_str_cases tc with ⟨s, rfl⟩ | hn
            · cases hwr : w.writeOk with
              | true =>
                  rw [runScript_write_success w content s data hread hparse
                    hex hopen hwr]
                  dsimp only
                  exact ⟨Or.inl ⟨rfl, rfl⟩, by decide⟩
              | false =>
                  rw [runScript_write_io_fail w content s data hread hparse
                    hex hopen hwr]
                  dsimp only
                  exact ⟨Or.inr ⟨rfl, Err.writeFailed, rfl⟩, by decide⟩
            · rw [runScript_write_notstr w content data tc hread hparse hex
                hn hopen]
              dsimp only
              exact ⟨Or.inr ⟨rfl, Err.writeNotStr, rfl⟩, by decide⟩
